import Mathlib

/-!
Shallow embedding of the kitties pallet (`src/pallets/kitties/src/lib3.rs`)
and verification of its specification.

Accounts, balances and hashes are modelled as `Nat`; the 16-byte DNA is a
list of byte values; the three storage items `KittyCnt`, `Kitties` and
`KittiesOwned` are modelled by a record of a counter and two association
lists with `StorageMap` semantics (`insert` is an upsert that silently
replaces an existing binding, exactly as in Substrate).  The runtime's
hash function (`T::Hashing::hash_of`) and the capacity constant
`MaxKittyOwned` are external configuration, modelled by a `Config` record;
the randomness source and the block-height oracle are modelled by an
`Oracle` record holding the values the pallet would read from them in one
evaluation context.
-/

namespace KittiesPallet

/-- Gender of a kitty, the `Gender` enum of the pallet. -/
inductive Gender where
  | Male
  | Female
deriving DecidableEq, Repr

/-- The `Default` impl for `Gender` in the source returns `Male`. -/
instance : Inhabited Gender := ⟨Gender.Male⟩

/-- A kitty record (`struct Kitty`): 16-byte DNA, optional price, gender,
owner.  Field order follows the source. -/
structure Kitty where
  dna : List Nat
  price : Option Nat
  gender : Gender
  owner : Nat
deriving DecidableEq, Repr

/-- Lookup in an association list, modelling a `StorageMap` read. -/
def alistGet {β : Type} : List (Nat × β) → Nat → Option β
  | [], _ => none
  | (k, v) :: rest, key => if k = key then some v else alistGet rest key

/-- Insert into an association list, modelling `StorageMap::insert`:
upsert semantics, an existing binding for the key is silently replaced. -/
def alistInsert {β : Type} (key : Nat) (v : β) : List (Nat × β) → List (Nat × β)
  | [] => [(key, v)]
  | (k, w) :: rest =>
    if k = key then (key, v) :: rest else (k, w) :: alistInsert key v rest

/-- The pallet's persistent storage: `KittyCnt`, `Kitties`, `KittiesOwned`. -/
structure PalletState where
  kittyCnt : Nat
  kitties : List (Nat × Kitty)
  kittiesOwned : List (Nat × List Nat)
deriving DecidableEq, Repr

/-- The empty genesis state: zero counter, empty maps. -/
def initState : PalletState :=
  { kittyCnt := 0, kitties := [], kittiesOwned := [] }

/-- Read of `KittiesOwned`, a `ValueQuery` map: absent keys read as the
empty bounded vector. -/
def ownedBy (st : PalletState) (a : Nat) : List Nat :=
  (alistGet st.kittiesOwned a).getD []

/-- Externally supplied configuration: the `MaxKittyOwned` constant and the
runtime's `T::Hashing::hash_of` on a full kitty record. -/
structure Config where
  maxKittyOwned : Nat
  hashOf : Kitty → Nat

/-- External inputs of one evaluation context: the first byte of the
randomness drawn with tag `"gender"` (used by `gen_gender`), and the
16-byte blake2-128 digest of the encoded pair (randomness with tag `"dna"`,
current block number) that `gen_dna` returns. -/
structure Oracle where
  genderByte : Nat
  dnaVal : List Nat
deriving DecidableEq, Repr

/-- `gen_gender`: parity of the first byte of a fresh randomness draw;
`0 => Male`, otherwise `Female`. -/
def genGender (o : Oracle) : Gender :=
  if o.genderByte % 2 = 0 then Gender.Male else Gender.Female

/-- `gen_dna`: the blake2-128 digest of (randomness, block number), read
from the oracle. -/
def genDna (o : Oracle) : List Nat := o.dnaVal

/-- Largest value of a `u64`. -/
def U64MAX : Nat := 2 ^ 64 - 1

/-- `u64::checked_add(1)` on the kitty counter. -/
def checkedAdd1 (c : Nat) : Option Nat :=
  if c + 1 ≤ U64MAX then some (c + 1) else none

/-- The pallet's `Error` enum.  Only the first two variants and
`KittyNotExist` are reachable from the functions modelled here. -/
inductive KittyError where
  | KittyCntOverflow
  | ExceedMaxKittyOwned
  | BuyerIsKittyOwner
  | TransferToSelf
  | KittyNotExist
  | NotKittyOwner
  | KittyNotForSale
  | KittyBidPriceTooLow
  | NotEnoughBalance
deriving DecidableEq, Repr

/-- `BoundedVec::try_push`: appends at the end iff the vector is strictly
below its bound, otherwise fails without mutating. -/
def tryPush (bound : Nat) (v : List Nat) (x : Nat) : Option (List Nat) :=
  if v.length < bound then some (v ++ [x]) else none

/-- The kitty record built at the top of `mint`: supplied DNA and gender, or
the generated ones when absent (`unwrap_or_else`), price `None`, the given
owner. -/
def buildKitty (o : Oracle) (owner : Nat) (dna : Option (List Nat))
    (gender : Option Gender) : Kitty :=
  { dna := dna.getD (genDna o), price := none,
    gender := gender.getD (genGender o), owner := owner }

/-- `Pallet::mint`.  Returns the dispatch result together with the storage
state after the call.  Mirrors the source order: build the kitty, hash it,
`checked_add` the counter, `try_mutate`/`try_push` the owner's vector (which
writes nothing on failure), then `Kitties::insert` and `KittyCnt::put`; each
error returns before any storage write has happened. -/
def mint (cfg : Config) (o : Oracle) (st : PalletState) (owner : Nat)
    (dna : Option (List Nat)) (gender : Option Gender) :
    Except KittyError Nat × PalletState :=
  let kitty := buildKitty o owner dna gender
  let kittyId := cfg.hashOf kitty
  match checkedAdd1 st.kittyCnt with
  | none => (Except.error KittyError.KittyCntOverflow, st)
  | some newCnt =>
    match tryPush cfg.maxKittyOwned (ownedBy st owner) kittyId with
    | none => (Except.error KittyError.ExceedMaxKittyOwned, st)
    | some newOwned =>
      (Except.ok kittyId,
        { kittyCnt := newCnt,
          kitties := alistInsert kittyId kitty st.kitties,
          kittiesOwned := alistInsert owner newOwned st.kittiesOwned })

/-- `create_kitty`: mint with freshly generated DNA and gender for the
signed sender (event emission is out of scope). -/
def createKitty (cfg : Config) (o : Oracle) (st : PalletState) (sender : Nat) :
    Except KittyError Nat × PalletState :=
  mint cfg o st sender none none

/-- One byte of the `breed_dna` loop body:
`(m & dna1) | (!m & dna2)` where `!` is complement within 8 bits. -/
def combByte (m d1 d2 : Nat) : Nat :=
  (m &&& d1) ||| ((m ^^^ 255) &&& d2)

/-- The `breed_dna` loop over the mask and the two parents' byte
sequences. -/
def combineDna : List Nat → List Nat → List Nat → List Nat
  | m :: ms, a :: r1, b :: r2 => combByte m a b :: combineDna ms r1 r2
  | _, _, _ => []

/-- `Pallet::breed_dna`: look up both parents (failing with `KittyNotExist`
if either is absent), then combine their DNA under a fresh random mask from
`gen_dna`.  Read-only: it only calls the `kitties` getter and returns the
child DNA, performing no storage write. -/
def breedDna (o : Oracle) (st : PalletState) (kid1 kid2 : Nat) :
    Except KittyError (List Nat) :=
  match alistGet st.kitties kid1 with
  | none => Except.error KittyError.KittyNotExist
  | some k1 =>
    match alistGet st.kitties kid2 with
    | none => Except.error KittyError.KittyNotExist
    | some k2 => Except.ok (combineDna (genDna o) k1.dna k2.dna)

/-- `Pallet::is_kitty_owner`: read-only ownership test; `KittyNotExist`
when the id is absent, otherwise compares the stored owner. -/
def isKittyOwner (st : PalletState) (kittyId : Nat) (acct : Nat) :
    Except KittyError Bool :=
  match alistGet st.kitties kittyId with
  | some kitty => Except.ok (decide (kitty.owner = acct))
  | none => Except.error KittyError.KittyNotExist

/-- States reachable from genesis through the pallet's operations.
`create_kitty` is `mint _ none none`, and `breed_dna` / `is_kitty_owner`
read storage but never write, so successful `mint` calls are the only
storage transitions (a failed call leaves the state unchanged, see
`mint_error_spec`). -/
inductive Reachable (cfg : Config) : PalletState → Prop where
  | init : Reachable cfg initState
  | mint_ok (o : Oracle) (st : PalletState) (owner : Nat)
      (dna : Option (List Nat)) (gender : Option Gender)
      (kid : Nat) (st' : PalletState) :
      Reachable cfg st →
      mint cfg o st owner dna gender = (Except.ok kid, st') →
      Reachable cfg st'

/-- A small concrete configuration used in the concrete executions below:
capacity 5 and an identifier derivation reading the first DNA byte (the
collisions exhibited below already occur for content-identical records, so
they do not depend on this choice of hash). -/
def exCfg : Config := { maxKittyOwned := 5, hashOf := fun k => k.dna.headD 0 }

/-- Concrete oracle values (never consulted by the mints below, which pass
explicit DNA and gender). -/
def exOracle : Oracle := { genderByte := 0, dnaVal := List.replicate 16 0 }

/-- A concrete 16-byte DNA whose first byte is 8 (even). -/
def exDna : List Nat := 8 :: List.replicate 15 0

/-- State after a first mint of `exDna` with gender `Female` by account 3. -/
def exSt1 : PalletState :=
  (mint exCfg exOracle initState 3 (some exDna) (some Gender.Female)).2

/-- State after minting the identical kitty a second time: same content,
hence the same derived identifier. -/
def exSt2 : PalletState :=
  (mint exCfg exOracle exSt1 3 (some exDna) (some Gender.Female)).2

/-- A state whose counter sits at the `u64` maximum. -/
def ovSt : PalletState :=
  { kittyCnt := U64MAX, kitties := [], kittiesOwned := [] }

/-- The kitty record stored by the concrete mints above. -/
def exKitty : Kitty :=
  { dna := exDna, price := none, gender := Gender.Female, owner := 3 }

/-! ## Helper lemmas about the storage primitives -/

theorem alistGet_insert {β : Type} (k : Nat) (v : β) (l : List (Nat × β))
    (k' : Nat) :
    alistGet (alistInsert k v l) k' = if k = k' then some v else alistGet l k' := by
  induction l with
  | nil => simp [alistGet, alistInsert]
  | cons hd tl ih =>
    obtain ⟨a, w⟩ := hd
    by_cases hak : a = k
    · subst hak
      by_cases hkk : a = k' <;> simp [alistGet, alistInsert, hkk]
    · by_cases hkk : k = k'
      · subst hkk
        simp [alistGet, alistInsert, hak, ih]
      · simp [alistGet, alistInsert, hak, hkk, ih]

theorem alistInsert_length {β : Type} (k : Nat) (v : β) (l : List (Nat × β)) :
    (alistInsert k v l).length ≤ l.length + 1 := by
  induction l with
  | nil => simp [alistInsert]
  | cons hd tl ih =>
    obtain ⟨a, w⟩ := hd
    by_cases hak : a = k
    · simp [alistInsert, hak]
    · simp [alistInsert, hak]
      omega

theorem alistInsert_length_of_isSome {β : Type} (k : Nat) (v : β)
    (l : List (Nat × β)) (h : (alistGet l k).isSome = true) :
    (alistInsert k v l).length = l.length := by
  induction l with
  | nil => simp [alistGet] at h
  | cons hd tl ih =>
    obtain ⟨a, w⟩ := hd
    by_cases hak : a = k
    · simp [alistInsert, hak]
    · simp [alistGet, hak] at h
      simp [alistInsert, hak, ih h]

/-! ## Characterisation of `mint` -/

theorem mint_ok_spec {cfg : Config} {o : Oracle} {st : PalletState}
    {owner : Nat} {dna : Option (List Nat)} {g : Option Gender}
    {kid : Nat} {st' : PalletState}
    (h : mint cfg o st owner dna g = (Except.ok kid, st')) :
    kid = cfg.hashOf (buildKitty o owner dna g) ∧
    (ownedBy st owner).length < cfg.maxKittyOwned ∧
    st.kittyCnt + 1 ≤ U64MAX ∧
    st' = { kittyCnt := st.kittyCnt + 1,
            kitties := alistInsert kid (buildKitty o owner dna g) st.kitties,
            kittiesOwned :=
              alistInsert owner (ownedBy st owner ++ [kid]) st.kittiesOwned } := by
  by_cases h1 : st.kittyCnt + 1 ≤ U64MAX
  · by_cases h2 : (ownedBy st owner).length < cfg.maxKittyOwned
    · simp only [mint, checkedAdd1, tryPush, if_pos h1, if_pos h2,
        Prod.mk.injEq, Except.ok.injEq] at h
      obtain ⟨hk, hs⟩ := h
      subst hk
      exact ⟨rfl, h2, h1, hs.symm⟩
    · simp [mint, checkedAdd1, tryPush, if_pos h1, if_neg h2] at h
  · simp [mint, checkedAdd1, if_neg h1] at h

theorem mint_error_spec {cfg : Config} {o : Oracle} {st : PalletState}
    {owner : Nat} {dna : Option (List Nat)} {g : Option Gender}
    {e : KittyError} {st' : PalletState}
    (h : mint cfg o st owner dna g = (Except.error e, st')) :
    st' = st ∧
    (e = KittyError.KittyCntOverflow ∨ e = KittyError.ExceedMaxKittyOwned) := by
  by_cases h1 : st.kittyCnt + 1 ≤ U64MAX
  · by_cases h2 : (ownedBy st owner).length < cfg.maxKittyOwned
    · simp [mint, checkedAdd1, tryPush, if_pos h1, if_pos h2] at h
    · simp only [mint, checkedAdd1, tryPush, if_pos h1, if_neg h2,
        Prod.mk.injEq, Except.error.injEq] at h
      exact ⟨h.2.symm, Or.inr h.1.symm⟩
  · simp only [mint, checkedAdd1, if_neg h1,
      Prod.mk.injEq, Except.error.injEq] at h
    exact ⟨h.2.symm, Or.inl h.1.symm⟩

/-- Reading an owner's vector after the two map writes a successful mint
performs. -/
theorem ownedBy_mint_result (c : Nat) (ks : List (Nat × Kitty))
    (m : List (Nat × List Nat)) (owner : Nat) (l : List Nat) (a : Nat) :
    ownedBy { kittyCnt := c, kitties := ks, kittiesOwned := alistInsert owner l m } a
      = if owner = a then l
        else ownedBy { kittyCnt := c, kitties := ks, kittiesOwned := m } a := by
  simp only [ownedBy, alistGet_insert]
  by_cases h : owner = a <;> simp [h]

/-- Every stored kitty is keyed by its own hash: `Kitties::insert` is only
ever called with key `hash_of kitty`. -/
theorem reachable_store_keys (cfg : Config) (st : PalletState)
    (h : Reachable cfg st) :
    ∀ kid k, alistGet st.kitties kid = some k → cfg.hashOf k = kid := by
  induction h with
  | init => intro kid k hk; simp [initState, alistGet] at hk
  | mint_ok o st owner dna g kid0 st' hr heq ih =>
    obtain ⟨hkid, hlen, hcnt, hst⟩ := mint_ok_spec heq
    subst hst
    intro kid k hk
    simp only [alistGet_insert] at hk
    by_cases hkk : kid0 = kid
    · rw [if_pos hkk] at hk
      cases hk
      rw [hkid] at hkk
      exact hkk
    · rw [if_neg hkk] at hk
      exact ih kid k hk

/-! ## Helper lemmas about `breed_dna`'s combination rule -/

/-- Pointwise description of the `breed_dna` loop: position `i` of the
child is `combByte` of position `i` of the mask and of the two parents. -/
theorem combineDna_get (mask d1 d2 : List Nat) (i : Nat) :
    (combineDna mask d1 d2)[i]? =
      mask[i]?.bind fun m => d1[i]?.bind fun a => d2[i]?.map fun b =>
        combByte m a b := by
  induction mask generalizing d1 d2 i with
  | nil => simp [combineDna]
  | cons m ms ih =>
    cases d1 with
    | nil => cases i <;> simp [combineDna]
    | cons a r1 =>
      cases d2 with
      | nil => cases i <;> simp [combineDna]
      | cons b r2 =>
        cases i with
        | zero => simp [combineDna]
        | succ n => simpa [combineDna] using ih r1 r2 n

/-- Bit-level description of one combined byte: for the eight bit positions
of a byte, the child's bit is parent 1's bit where the mask bit is set and
parent 2's bit where it is clear. -/
theorem combByte_testBit (m a b j : Nat) (hj : j < 8) :
    (combByte m a b).testBit j =
      if m.testBit j then a.testBit j else b.testBit j := by
  have h255 : (255 : Nat).testBit j = true := by
    have : (255 : Nat) = 2 ^ 8 - 1 := by norm_num
    rw [this, Nat.testBit_two_pow_sub_one]
    simpa using hj
  simp only [combByte, Nat.testBit_or, Nat.testBit_and, Nat.testBit_xor, h255]
  cases hm : m.testBit j <;> simp

/-- Concrete reachability of the collision states used below. -/
theorem reachable_exSt1 : Reachable exCfg exSt1 :=
  Reachable.mint_ok exOracle initState 3 (some exDna) (some Gender.Female)
    8 exSt1 Reachable.init rfl

theorem reachable_exSt2 : Reachable exCfg exSt2 :=
  Reachable.mint_ok exOracle exSt1 3 (some exDna) (some Gender.Female)
    8 exSt2 reachable_exSt1 rfl

/-! ## Claim C1 -/

/-- C1, as stated, is false: `mint` performs no duplicate-identifier check
and the pallet has no `DuplicateIdentifier` error.  Concretely, after a
first mint has stored identifier 8, minting the identical kitty again
succeeds (returns `Ok(8)`) instead of failing. -/
theorem C1_counterexample :
    (alistGet exSt1.kitties 8).isSome = true ∧
    (mint exCfg exOracle exSt1 3 (some exDna) (some Gender.Female)).1 =
      Except.ok 8 :=
  ⟨by decide, rfl⟩

/-- C1 amended: a mint whose derived identifier already exists in the store
does not fail with any duplicate error (the only failure modes are counter
overflow and owner capacity); when the counter and capacity checks pass it
succeeds and silently replaces the stored asset under that identifier
(`StorageMap::insert` is an upsert), leaving the number of stored assets
unchanged. -/
theorem C1_mint_overwrites (cfg : Config) (o : Oracle) (st : PalletState)
    (owner : Nat) (dna : Option (List Nat)) (g : Option Gender)
    (hdup : (alistGet st.kitties (cfg.hashOf (buildKitty o owner dna g))).isSome
      = true)
    (hcnt : st.kittyCnt + 1 ≤ U64MAX)
    (hcap : (ownedBy st owner).length < cfg.maxKittyOwned) :
    (mint cfg o st owner dna g).1 =
      Except.ok (cfg.hashOf (buildKitty o owner dna g)) ∧
    alistGet (mint cfg o st owner dna g).2.kitties
        (cfg.hashOf (buildKitty o owner dna g))
      = some (buildKitty o owner dna g) ∧
    (mint cfg o st owner dna g).2.kitties.length = st.kitties.length := by
  have hm : mint cfg o st owner dna g =
      (Except.ok (cfg.hashOf (buildKitty o owner dna g)),
        { kittyCnt := st.kittyCnt + 1,
          kitties := alistInsert (cfg.hashOf (buildKitty o owner dna g))
            (buildKitty o owner dna g) st.kitties,
          kittiesOwned := alistInsert owner
            (ownedBy st owner ++ [cfg.hashOf (buildKitty o owner dna g)])
            st.kittiesOwned }) := by
    simp [mint, checkedAdd1, tryPush, if_pos hcnt, if_pos hcap]
  rw [hm]
  refine ⟨rfl, ?_, alistInsert_length_of_isSome _ _ _ hdup⟩
  simp [alistGet_insert]

/-- Witness for C1: the duplicate mint of the concrete scenario. -/
theorem C1_witness :
    (mint exCfg exOracle exSt1 3 (some exDna) (some Gender.Female)).1 =
      Except.ok (exCfg.hashOf (buildKitty exOracle 3 (some exDna)
        (some Gender.Female))) ∧
    alistGet (mint exCfg exOracle exSt1 3 (some exDna)
        (some Gender.Female)).2.kitties
        (exCfg.hashOf (buildKitty exOracle 3 (some exDna) (some Gender.Female)))
      = some (buildKitty exOracle 3 (some exDna) (some Gender.Female)) ∧
    (mint exCfg exOracle exSt1 3 (some exDna)
        (some Gender.Female)).2.kitties.length = exSt1.kitties.length :=
  C1_mint_overwrites exCfg exOracle exSt1 3 (some exDna) (some Gender.Female)
    (by decide) (by decide) (by decide)

/-! ## Claim C2 -/

/-- C2, as stated, is false: after two mints of content-identical kitties
(same derived identifier) the reachable state has `KittyCnt = 2` but only
one entry in the `Kitties` map. -/
theorem C2_counterexample :
    Reachable exCfg exSt2 ∧ exSt2.kittyCnt = 2 ∧ exSt2.kitties.length = 1 :=
  ⟨reachable_exSt2, by decide, by decide⟩

/-- C2 amended: in every reachable state the number of entries of the
`Kitties` map is at most `KittyCnt` (the counter counts successful mints,
and an identifier collision makes the insert overwrite instead of adding an
entry, so equality can fail). -/
theorem C2_count_ge_entries (cfg : Config) (st : PalletState)
    (h : Reachable cfg st) : st.kitties.length ≤ st.kittyCnt := by
  induction h with
  | init => simp [initState]
  | mint_ok o st owner dna g kid st' hr heq ih =>
    obtain ⟨hkid, hlen, hcnt, hst⟩ := mint_ok_spec heq
    subst hst
    have hins := alistInsert_length kid (buildKitty o owner dna g) st.kitties
    dsimp only
    omega

/-- Witness for C2: the bound at the concrete reachable collision state. -/
theorem C2_witness : exSt2.kitties.length ≤ exSt2.kittyCnt :=
  C2_count_ge_entries exCfg exSt2 reachable_exSt2

/-! ## Claim C3 -/

/-- C3 confirmed: whenever `mint` returns an error (necessarily
`KittyCntOverflow` or `ExceedMaxKittyOwned`), the resulting storage state is
exactly the input state: same counter, same asset store, and the same
ownership vector for every owner.  Both error returns happen before any
storage write, and a failing `try_mutate` writes nothing. -/
theorem C3_mint_error_no_side_effects (cfg : Config) (o : Oracle)
    (st : PalletState) (owner : Nat) (dna : Option (List Nat))
    (g : Option Gender) (e : KittyError) (st' : PalletState)
    (h : mint cfg o st owner dna g = (Except.error e, st')) :
    st'.kittyCnt = st.kittyCnt ∧ st'.kitties = st.kitties ∧
    ∀ a, ownedBy st' a = ownedBy st a := by
  obtain ⟨hst, _⟩ := mint_error_spec h
  subst hst
  exact ⟨rfl, rfl, fun a => rfl⟩

/-- Witness for C3: a mint from a counter already at the `u64` maximum. -/
theorem C3_witness :
    (mint exCfg exOracle ovSt 3 (some exDna) (some Gender.Female)).2.kittyCnt
      = ovSt.kittyCnt ∧
    (mint exCfg exOracle ovSt 3 (some exDna) (some Gender.Female)).2.kitties
      = ovSt.kitties ∧
    ∀ a, ownedBy (mint exCfg exOracle ovSt 3 (some exDna)
      (some Gender.Female)).2 a = ownedBy ovSt a :=
  C3_mint_error_no_side_effects exCfg exOracle ovSt 3 (some exDna)
    (some Gender.Female) KittyError.KittyCntOverflow
    (mint exCfg exOracle ovSt 3 (some exDna) (some Gender.Female)).2 rfl

/-! ## Claim C4 -/

/-- C4, as stated, is false: the stored gender is not a function of
`genetic_data[0]`.  A successful mint with an even first DNA byte (8) and an
explicitly supplied `Female` gender stores `Female`, where the claimed
parity rule would require `Male`. -/
theorem C4_counterexample :
    mint exCfg exOracle initState 3 (some exDna) (some Gender.Female)
      = (Except.ok 8, exSt1) ∧
    alistGet exSt1.kitties 8 = some exKitty ∧
    exKitty.dna.headD 0 % 2 = 0 ∧
    exKitty.gender = Gender.Female :=
  ⟨rfl, by decide, by decide, by decide⟩

/-- C4 amended: the stored gender is independent of `genetic_data[0]`: it
equals the explicitly supplied gender when one is given, and only when none
is supplied is it `gen_gender`'s output, the parity of the first byte of a
fresh randomness draw — even byte gives `Male`, odd gives `Female`, for all
byte values. -/
theorem C4_stored_gender (cfg : Config) (o : Oracle) (st : PalletState)
    (owner : Nat) (dna : Option (List Nat)) (g : Option Gender)
    (kid : Nat) (st' : PalletState)
    (h : mint cfg o st owner dna g = (Except.ok kid, st')) :
    alistGet st'.kitties kid = some (buildKitty o owner dna g) ∧
    (∀ gg, (buildKitty o owner dna (some gg)).gender = gg) ∧
    (buildKitty o owner dna none).gender =
      (if o.genderByte % 2 = 0 then Gender.Male else Gender.Female) := by
  obtain ⟨hkid, hlen, hcnt, hst⟩ := mint_ok_spec h
  subst hst
  refine ⟨?_, fun gg => rfl, rfl⟩
  dsimp only
  rw [alistGet_insert, if_pos rfl]

/-- Witness for C4: the concrete first mint. -/
theorem C4_witness :
    alistGet exSt1.kitties 8 =
      some (buildKitty exOracle 3 (some exDna) (some Gender.Female)) ∧
    (∀ gg, (buildKitty exOracle 3 (some exDna) (some gg)).gender = gg) ∧
    (buildKitty exOracle 3 (some exDna) none).gender =
      (if exOracle.genderByte % 2 = 0 then Gender.Male else Gender.Female) :=
  C4_stored_gender exCfg exOracle initState 3 (some exDna) (some Gender.Female)
    8 exSt1 rfl

/-! ## Claim C5 -/

/-- C5, as stated, is false in its absence conjunct: the concrete duplicate
mint succeeds although its returned identifier 8 was already present in the
asset store before the call. -/
theorem C5_counterexample :
    mint exCfg exOracle exSt1 3 (some exDna) (some Gender.Female)
      = (Except.ok 8, exSt2) ∧
    alistGet exSt1.kitties 8 ≠ none :=
  ⟨rfl, by decide⟩

/-- C5 amended: every successful `mint(owner, dna?, gender?)` increases the
global count by exactly 1 and stores, under the returned identifier, an
asset whose owner is the given owner and whose price is `None`; the
identifier is present afterwards, but need not have been absent beforehand
(a colliding mint succeeds and overwrites). -/
theorem C5_mint_success_spec (cfg : Config) (o : Oracle) (st : PalletState)
    (owner : Nat) (dna : Option (List Nat)) (g : Option Gender)
    (kid : Nat) (st' : PalletState)
    (h : mint cfg o st owner dna g = (Except.ok kid, st')) :
    st'.kittyCnt = st.kittyCnt + 1 ∧
    alistGet st'.kitties kid = some (buildKitty o owner dna g) ∧
    (buildKitty o owner dna g).owner = owner ∧
    (buildKitty o owner dna g).price = none := by
  obtain ⟨hkid, hlen, hcnt, hst⟩ := mint_ok_spec h
  subst hst
  refine ⟨rfl, ?_, rfl, rfl⟩
  dsimp only
  rw [alistGet_insert, if_pos rfl]

/-- Witness for C5: the concrete first mint from genesis. -/
theorem C5_witness :
    exSt1.kittyCnt = initState.kittyCnt + 1 ∧
    alistGet exSt1.kitties 8 =
      some (buildKitty exOracle 3 (some exDna) (some Gender.Female)) ∧
    (buildKitty exOracle 3 (some exDna) (some Gender.Female)).owner = 3 ∧
    (buildKitty exOracle 3 (some exDna) (some Gender.Female)).price = none :=
  C5_mint_success_spec exCfg exOracle initState 3 (some exDna)
    (some Gender.Female) 8 exSt1 rfl

/-! ## Claim C6 -/

/-- C6, as stated, is false in its duplicate-freedom conjunct: after the two
content-identical mints, account 3's reachable ownership vector is `[8, 8]`,
containing the same identifier twice (`try_push` never checks for
duplicates). -/
theorem C6_counterexample :
    Reachable exCfg exSt2 ∧ ownedBy exSt2 3 = [8, 8] :=
  ⟨reachable_exSt2, by decide⟩

/-- C6 amended: in every reachable state each owner's ownership vector has
length at most `MaxKittyOwned`, and — provided the identifier derivation is
injective on kitty records — every identifier in an owner's vector is
present in the asset store with that asset's owner field equal to that
owner.  The vector may however contain duplicates, since a content-identical
mint pushes the same identifier again. -/
theorem C6_owned_invariant (cfg : Config) (st : PalletState)
    (h : Reachable cfg st) :
    ∀ a, (ownedBy st a).length ≤ cfg.maxKittyOwned ∧
      (Function.Injective cfg.hashOf →
        ∀ kid, kid ∈ ownedBy st a →
          ∃ k, alistGet st.kitties kid = some k ∧ k.owner = a) := by
  induction h with
  | init =>
    intro a
    refine ⟨by simp [initState, ownedBy, alistGet], ?_⟩
    intro _ kid hk
    simp [initState, ownedBy, alistGet] at hk
  | mint_ok o st owner dna g kid0 st' hr heq ih =>
    have hkeys := reachable_store_keys cfg st hr
    obtain ⟨hkid, hlen, hcnt, hst⟩ := mint_ok_spec heq
    subst hst
    have howned : ∀ a, ownedBy
        { kittyCnt := st.kittyCnt + 1,
          kitties := alistInsert kid0 (buildKitty o owner dna g) st.kitties,
          kittiesOwned := alistInsert owner (ownedBy st owner ++ [kid0])
            st.kittiesOwned } a =
        if owner = a then ownedBy st owner ++ [kid0] else ownedBy st a := by
      intro a
      simp only [ownedBy, alistGet_insert]
      by_cases hoa : owner = a <;> simp [hoa]
    intro a
    rw [howned a]
    by_cases hoa : owner = a
    · subst hoa
      rw [if_pos rfl]
      constructor
      · simp only [List.length_append, List.length_cons, List.length_nil]
        omega
      · intro hinj kid hk
        rcases List.mem_append.mp hk with hk | hk
        · obtain ⟨k, hgk, hko⟩ := (ih owner).2 hinj kid hk
          by_cases hk0 : kid0 = kid
          · refine ⟨buildKitty o owner dna g, ?_, rfl⟩
            dsimp only
            rw [alistGet_insert, if_pos hk0]
          · refine ⟨k, ?_, hko⟩
            dsimp only
            rw [alistGet_insert, if_neg hk0]
            exact hgk
        · simp only [List.mem_singleton] at hk
          subst hk
          refine ⟨buildKitty o owner dna g, ?_, rfl⟩
          dsimp only
          rw [alistGet_insert, if_pos rfl]
    · rw [if_neg hoa]
      refine ⟨(ih a).1, ?_⟩
      intro hinj kid hk
      obtain ⟨k, hgk, hko⟩ := (ih a).2 hinj kid hk
      by_cases hk0 : kid0 = kid
      · exfalso
        have h1 : cfg.hashOf k = kid := hkeys kid k hgk
        have h2 : cfg.hashOf (buildKitty o owner dna g) = kid :=
          hkid.symm.trans hk0
        have hkk : k = buildKitty o owner dna g := hinj (h1.trans h2.symm)
        rw [hkk] at hko
        exact hoa hko
      · refine ⟨k, ?_, hko⟩
        dsimp only
        rw [alistGet_insert, if_neg hk0]
        exact hgk

/-- Witness for C6: the capacity bound at the concrete reachable state. -/
theorem C6_witness : (ownedBy exSt2 3).length ≤ exCfg.maxKittyOwned :=
  (C6_owned_invariant exCfg exSt2 reachable_exSt2 3).1

/-! ## Claim C7 -/

/-- C7 confirmed: when both parents exist in the store, `breed_dna` returns
`Ok` of the mask-combined DNA; byte `i` of the child is
`(m[i] & dna1[i]) | (!m[i] & dna2[i])`, and for each of the eight bit
positions of a byte the child's bit equals parent 1's bit where the mask bit
is 1 and parent 2's bit where it is 0. -/
theorem C7_breed_dna_spec (o : Oracle) (st : PalletState) (kid1 kid2 : Nat)
    (k1 k2 : Kitty)
    (h1 : alistGet st.kitties kid1 = some k1)
    (h2 : alistGet st.kitties kid2 = some k2) :
    breedDna o st kid1 kid2 =
      Except.ok (combineDna (genDna o) k1.dna k2.dna) ∧
    (∀ i : Nat, (combineDna (genDna o) k1.dna k2.dna)[i]? =
      (genDna o)[i]?.bind fun m => k1.dna[i]?.bind fun a =>
        k2.dna[i]?.map fun b => combByte m a b) ∧
    (∀ m a b j, j < 8 →
      (combByte m a b).testBit j =
        if m.testBit j then a.testBit j else b.testBit j) := by
  refine ⟨?_, fun i => combineDna_get (genDna o) k1.dna k2.dna i,
    fun m a b j hj => combByte_testBit m a b j hj⟩
  simp [breedDna, h1, h2]

/-- Witness for C7: breeding the concrete stored kitty with itself. -/
theorem C7_witness :
    breedDna exOracle exSt1 8 8 =
      Except.ok (combineDna (genDna exOracle) exKitty.dna exKitty.dna) :=
  (C7_breed_dna_spec exOracle exSt1 8 8 exKitty exKitty (by decide)
    (by decide)).1

/-! ## Claim C8 -/

/-- C8 confirmed: `breed_dna` fails exactly when at least one parent
identifier is absent from the store, and `KittyNotExist` is its only error.
It is read-only by construction — it only calls the `kitties` getter and
returns the child DNA, so no counter, store or ownership-index mutation can
occur. -/
theorem C8_breed_dna_not_found (o : Oracle) (st : PalletState)
    (kid1 kid2 : Nat) :
    (breedDna o st kid1 kid2 = Except.error KittyError.KittyNotExist ↔
      alistGet st.kitties kid1 = none ∨ alistGet st.kitties kid2 = none) ∧
    ∀ e, breedDna o st kid1 kid2 = Except.error e →
      e = KittyError.KittyNotExist := by
  unfold breedDna
  cases hg1 : alistGet st.kitties kid1 with
  | none =>
    refine ⟨by simp, ?_⟩
    intro e he
    simp only [Except.error.injEq] at he
    exact he.symm
  | some k1 =>
    cases hg2 : alistGet st.kitties kid2 with
    | none =>
      refine ⟨by simp, ?_⟩
      intro e he
      simp only [Except.error.injEq] at he
      exact he.symm
    | some k2 => simp

/-- Witness for C8: breeding from the empty store. -/
theorem C8_witness :
    breedDna exOracle initState 0 1 =
      Except.error KittyError.KittyNotExist :=
  (C8_breed_dna_not_found exOracle initState 0 1).1.mpr (Or.inl rfl)

/-! ## Claim C9 -/

/-- C9 confirmed: `is_kitty_owner` returns `Err(KittyNotExist)` exactly when
the identifier is absent, `Ok(true)` exactly when the stored owner equals
the queried account, and `Ok(false)` exactly when a stored asset exists with
a different owner.  It is read-only by construction — it only calls the
`kitties` getter. -/
theorem C9_is_kitty_owner_spec (st : PalletState) (kid acct : Nat) :
    (isKittyOwner st kid acct = Except.error KittyError.KittyNotExist ↔
      alistGet st.kitties kid = none) ∧
    (isKittyOwner st kid acct = Except.ok true ↔
      ∃ k, alistGet st.kitties kid = some k ∧ k.owner = acct) ∧
    (isKittyOwner st kid acct = Except.ok false ↔
      ∃ k, alistGet st.kitties kid = some k ∧ k.owner ≠ acct) := by
  unfold isKittyOwner
  cases hg : alistGet st.kitties kid with
  | none => simp
  | some k => simp

/-- Witness for C9: the stored owner of the concrete kitty. -/
theorem C9_witness : isKittyOwner exSt1 8 3 = Except.ok true :=
  (C9_is_kitty_owner_spec exSt1 8 3).2.1.mpr ⟨exKitty, by decide, by decide⟩

/-! ## Claim C10 -/

/-- C10 confirmed: with both an explicit DNA and an explicit gender,
`unwrap_or_else` never invokes `gen_dna` or `gen_gender`, so `mint` reads
neither the randomness source nor the block height: its result — returned
identifier and final storage state — is the same for any two oracle values,
hence deterministic in `(storage, owner, dna, gender)`. -/
theorem C10_mint_deterministic (cfg : Config) (o1 o2 : Oracle)
    (st : PalletState) (owner : Nat) (d : List Nat) (g : Gender) :
    mint cfg o1 st owner (some d) (some g) =
      mint cfg o2 st owner (some d) (some g) := rfl

end KittiesPallet
